import Mathlib

/-!
Verification of the battle-bot core: the team builder and acceptability
predicate of src/commands.py and the protocol dispatcher of
src/plugins/battling/battleHandler.py, shallowly embedded in Lean.
Randomness is modelled by passing the values the random source returned
(`randint a b` yields an arbitrary natural in [a, b]); the stream of
successive draws consumed by the team builder is a `List Nat`, so a
result of `none` means the computation was still running when the
supplied randomness ran out (it never finished).
-/

namespace PSBot

/-! ### String utilities mirroring the Python `str` operations used -/

/-- `startsWithL p s` is Python `s.startswith(p)` on char lists. -/
def startsWithL : List Char → List Char → Bool
  | [], _ => true
  | _ :: _, [] => false
  | a :: p, b :: s => a == b && startsWithL p s

/-- `containsL n h` is Python `n in h` (substring test) on char lists. -/
def containsL (needle : List Char) : List Char → Bool
  | [] => needle.isEmpty
  | c :: t => startsWithL needle (c :: t) || containsL needle t

/-- Accumulator pass of Python `str.split(sep)` for a one-char separator. -/
def splitChAux (sep : Char) (cur : List Char) : List Char → List (List Char)
  | [] => [cur.reverse]
  | c :: t => if c == sep then cur.reverse :: splitChAux sep [] t
              else splitChAux sep (c :: cur) t

/-- Python `s.split(sep)` for a one-character separator. -/
def pySplit (sep : Char) (s : String) : List String :=
  (splitChAux sep [] s.data).map String.mk

/-- Python `'init' in msg`: the raw-line substring test of battleHandler.py line 21. -/
def hasInit (s : String) : Bool := containsL ("init".data) s.data

/-- Python `'-Mega' in p` (commands.py line 104). -/
def hasMegaSub (s : String) : Bool := containsL ("-Mega".data) s.data

/-- One left-to-right pass of `re.sub('-(?:Mega(?:-(X|Y))?|Primal)','', s)`:
at each position the leftmost longest alternative is removed and scanning
resumes after it (commands.py lines 95 and 102). -/
def stripFormsAux : List Char → List Char
  | '-' :: 'M' :: 'e' :: 'g' :: 'a' :: '-' :: 'X' :: t => stripFormsAux t
  | '-' :: 'M' :: 'e' :: 'g' :: 'a' :: '-' :: 'Y' :: t => stripFormsAux t
  | '-' :: 'M' :: 'e' :: 'g' :: 'a' :: t => stripFormsAux t
  | '-' :: 'P' :: 'r' :: 'i' :: 'm' :: 'a' :: 'l' :: t => stripFormsAux t
  | c :: t => c :: stripFormsAux t
  | [] => []

/-- Base species: the descriptor with the mega / primal suffixes removed. -/
def stripForms (s : String) : String := String.mk (stripFormsAux s.data)

/-! ### Type effectiveness and the acceptability predicate (src/commands.py) -/

/-- The static data the team builder reads.  Modelled from the spec:
the files data/types.py and data/pokedex.py are not under src/, so the
type chart (`Types[t][m]`) and the catalog (`Pokedex[p]['types']`, an
ordered list of one or two type names) are parameters; `dex` returns the
first type and, for dual-typed species, the second. -/
structure TCfg where
  types : List String
  chart : String → String → ℚ
  dex : String → String × Option String

/-- Effectiveness of attacking type `m` against species `p`, exactly as
computed in `acceptableWeakness` (commands.py lines 167-180): the dual-typed
branch multiplies the two chart entries, the single-typed branch reads one. -/
def eff (cfg : TCfg) (p : String) (m : String) : ℚ :=
  match (cfg.dex p).2 with
  | some t2 => cfg.chart (cfg.dex p).1 m * cfg.chart t2 m
  | none => cfg.chart (cfg.dex p).1 m

/-- `acceptableWeakness` (commands.py lines 163-186): false on the empty
team; otherwise, per attacking type, count members with effectiveness `> 1`
(weak) and `< 1` (resistant) and require weak `< 3` and not
(weak `≥ 2` and resistant `≤ 1`). -/
def acceptableWeakness (cfg : TCfg) (team : List String) : Bool :=
  if team.isEmpty then false
  else cfg.types.all fun m =>
    !(decide (3 ≤ team.countP fun p => decide (1 < eff cfg p m))) &&
    !(decide (2 ≤ team.countP fun p => decide (1 < eff cfg p m)) &&
      decide ((team.countP fun p => decide (eff cfg p m < 1)) ≤ 1))

/-- The spec's effectiveness: the product of the type-table multipliers of
the species' one or two types versus `m`. -/
def specEff (cfg : TCfg) (p : String) (m : String) : ℚ :=
  (((cfg.dex p).1 :: (cfg.dex p).2.toList).map fun t => cfg.chart t m).prod

/-- Members weak to `m` per the spec (product of multipliers `> 1`). -/
def specWeakCount (cfg : TCfg) (team : List String) (m : String) : Nat :=
  team.countP fun p => decide (1 < specEff cfg p m)

/-- Members resistant to `m` per the spec (product of multipliers `< 1`). -/
def specResCount (cfg : TCfg) (team : List String) (m : String) : Nat :=
  team.countP fun p => decide (specEff cfg p m < 1)

/-- The spec's acceptability condition, stated as written in §4.4. -/
def specAcceptable (cfg : TCfg) (team : List String) : Prop :=
  team ≠ [] ∧ ∀ m ∈ cfg.types,
    specWeakCount cfg team m < 3 ∧
    ¬(2 ≤ specWeakCount cfg team m ∧ specResCount cfg team m ≤ 1)

theorem eff_eq_specEff (cfg : TCfg) (p m : String) :
    eff cfg p m = specEff cfg p m := by
  unfold eff specEff
  cases h : (cfg.dex p).2 <;> simp [h]

/-! ### The team builder loop (commands.py lines 97-119) -/

/-- Python set insertion `team |= {p}` (membership-tested; the concrete
position of the new element is irrelevant to every property proved). -/
def insertS (p : String) (t : List String) : List String :=
  if p ∈ t then t else p :: t

/-- `list(pool)[randint(0, len(pool)-1)]`: the random draw `r` selects an
index; every index is reachable.  `none` models the `ValueError` that
`randint(0, -1)` raises on an empty pool. -/
def pickPoke (pool : List String) (r : Nat) : Option String :=
  if pool.isEmpty then none else pool.get? (r % pool.length)

/-- The fallback fill of commands.py lines 116-117:
`while len(team) < 6: team |= {random pick}`.  Consumes one random draw per
iteration; `none` means the supplied draws ran out with the loop still
running (or the pool was empty). -/
def fillTeam (pool : List String) (team : List String) :
    List Nat → Option (List String)
  | [] => if 6 ≤ team.length then some team else none
  | r :: rs =>
    if 6 ≤ team.length then some team
    else match pickPoke pool r with
      | none => none
      | some p => fillTeam pool (insertS p team) rs

/-- The provisional add of commands.py lines 106-108:
`team |= {poke}` followed by `team -= {poke}` when the enlarged team is
not acceptable. -/
def addStep (cfg : TCfg) (poke : String) (team : List String) : List String :=
  if acceptableWeakness cfg (insertS poke team) then insertS poke team
  else (insertS poke team).erase poke

/-- The main loop of commands.py lines 100-118.  The `Bool` in the result
records whether the 100-attempt fallback fill produced the team.  Each
iteration consumes one random draw; `none` means the loop was still running
when the draws ran out. -/
def buildLoop (cfg : TCfg) (pool : List String) (team : List String)
    (attempts : Nat) : List Nat → Option (List String × Bool)
  | [] =>
    if 6 ≤ team.length && acceptableWeakness cfg team then some (team, false)
    else none
  | r :: rs =>
    if 6 ≤ team.length && acceptableWeakness cfg team then some (team, false)
    else match pickPoke pool r with
      | none => none
      | some poke =>
        if stripForms poke ∈ team then buildLoop cfg pool team attempts rs
        else if team.any hasMegaSub && hasMegaSub poke then
          buildLoop cfg pool team attempts rs
        else
          if 6 ≤ (addStep cfg poke team).length then some (addStep cfg poke team, false)
          else if 100 ≤ attempts + 1 then
            (fillTeam pool (addStep cfg poke team) rs).map fun t => (t, true)
          else buildLoop cfg pool (addStep cfg poke team) (attempts + 1) rs

/-- `[tier]team` (commands.py lines 97-119): run the drawing loop from the
empty team. -/
def build (cfg : TCfg) (pool : List String) (rs : List Nat) :
    Option (List String × Bool) :=
  buildLoop cfg pool [] 0 rs

/-! ### Battle data model

Modelled from the spec: plugins/battling/battle.py (the `Battle` and
`Pokemon` classes imported by battleHandler.py) is not under src/, so the
entity record, the side roster and the session record follow §3 of the
spec: a Pokemon entity holds species, descriptor, condition, active flag,
stat block, known moves, ability, item and mega-eligibility; a side roster
holds the player marker, display name, a collection keyed by descriptor and
the active reference; a session holds the battle key, both rosters and the
outstanding request id (initially empty). -/

structure Pokemon where
  species : String
  details : String
  condition : String
  active : Bool
  stats : List (String × Nat)
  moves : List String
  baseAbility : String
  item : String
  canMegaEvo : Bool
deriving DecidableEq

structure Side where
  id : String
  name : String
  team : List Pokemon
  active : Option Pokemon
deriving DecidableEq

/-- Modelled from the spec: a fresh side roster with nothing bound yet. -/
def Side.empty : Side := { id := "", name := "", team := [], active := none }

/-- Modelled from the spec: create-or-update the entity keyed by its
descriptor (`me.updateTeam(Pokemon(...))`, battleHandler.py line 33). -/
def Side.updateTeam (s : Side) (p : Pokemon) : Side :=
  if s.team.any fun q => q.details == p.details then
    { s with team := s.team.map fun q => if q.details == p.details then p else q }
  else
    { s with team := s.team ++ [p] }

/-- Modelled from the spec: look up a roster member by species
(`getPokemon`, battleHandler.py lines 52 and 54). -/
def Side.getPokemon (s : Side) (sp : String) : Option Pokemon :=
  s.team.find? fun q => q.species == sp

/-- Modelled from the spec: update the active reference (`setActive`). -/
def Side.setActive (s : Side) (p : Option Pokemon) : Side := { s with active := p }

/-- Modelled from the spec: bind a roster's identity (`setMe`/`setOther`,
battleHandler.py lines 41 and 43). -/
def Side.bind (s : Side) (nm pid : String) : Side := { s with name := nm, id := pid }

structure Battle where
  room : String
  me : Side
  other : Side
  rqid : String
deriving DecidableEq

/-- Modelled from the spec: `Battle(battle)` — a fresh session for a key. -/
def Battle.new (key : String) : Battle :=
  { room := key, me := Side.empty, other := Side.empty, rqid := "" }

/-! ### The protocol dispatcher (src/plugins/battling/battleHandler.py) -/

/-- The shape of a decoded `request` payload as the dispatcher reads it
(battleHandler.py lines 28-35): an optional `rqid` field (`'rqid' in
request`), an optional `side` object (`request['side']`, a missing key is a
`KeyError`), whose optional `pokemon` list likewise.  `json.loads` itself is
the Python library, kept abstract as `HEnv.jloads`. -/
structure ReqPoke where
  details : String
  condition : String
  active : Bool
  stats : List (String × Nat)
  moves : List String
  baseAbility : String
  item : String
  canMegaEvo : Bool
deriving DecidableEq

structure ReqSide where
  pokemon : Option (List ReqPoke)
deriving DecidableEq

structure ReqPayload where
  rqid : Option String
  side : Option ReqSide
deriving DecidableEq

/-- The handler's environment: the bot's name and the external JSON
decoder (`none` = `json.loads` raised). -/
structure HEnv where
  botName : String
  jloads : String → Option ReqPayload

/-- The dispatcher state: `self.activeBattles`, a dict keyed by battle key. -/
structure HState where
  activeBattles : List (String × Battle)
deriving DecidableEq

/-- The Python faults the dispatcher can raise. -/
inductive PyErr where
  | keyError
  | indexError
  | valueError
  | attrError
deriving DecidableEq

/-- Python dict lookup `activeBattles[battle]` (as an `Option`). -/
def lookupB (k : String) : List (String × Battle) → Option Battle
  | [] => none
  | kv :: t => if kv.1 == k then some kv.2 else lookupB k t

/-- Python dict assignment `activeBattles[battle] = b`. -/
def setB (k : String) (v : Battle) : List (String × Battle) → List (String × Battle)
  | [] => [(k, v)]
  | kv :: t => if kv.1 == k then (k, v) :: t else kv :: setB k v t

/-- `getSpecies` (battleHandler.py lines 16-17): `details.split(',')[0]`. -/
def getSpecies (details : String) : String := (pySplit ',' details).headD ""

/-- An apostrophe, for reproducing the source's chat strings verbatim. -/
def apos : String := (Char.ofNat 39).toString

/-- battleHandler.py line 57. -/
def winRemark : String := "O-oh, I won? Sorry :("

/-- battleHandler.py line 59. -/
def tieRemark : String := "It" ++ apos ++ "s okay, you" ++ apos ++ "re better than me :>"

/-- The Pokemon built from one `request` entry (battleHandler.py lines 34-35). -/
def mkPokemon (p : ReqPoke) : Pokemon :=
  { species := getSpecies p.details, details := p.details,
    condition := p.condition, active := p.active, stats := p.stats,
    moves := p.moves, baseAbility := p.baseAbility, item := p.item,
    canMegaEvo := p.canMegaEvo }

/-- The `for poke in sidedata['pokemon']` loop (battleHandler.py lines
32-35): each iteration looks the session up again (`KeyError` if absent)
and updates the own roster. -/
def foldPokes (st : HState) (battle : String) :
    List ReqPoke → Except PyErr HState
  | [] => .ok st
  | p :: ps =>
    match lookupB battle st.activeBattles with
    | none => .error .keyError
    | some b =>
      foldPokes
        ⟨setB battle { b with me := b.me.updateTeam (mkPokemon p) } st.activeBattles⟩
        battle ps

/-- The tag dispatch of `BattleHandler.parse` (battleHandler.py lines
23-60), after the raw line has been split on `|`.  `r` is the value the
branch's single `randint` call returned (`randint(0,6)` on `teampreview`,
`randint(0,3)` on `turn`).  The result carries the new state and the lines
sent through `respond` (each is `room ++ "|" ++ text`); `.error` is an
uncaught Python exception (no send precedes any raise, so outputs are
empty on error). -/
def parseTag (env : HEnv) (st : HState) (battle : String)
    (parts : List String) (tag : String) (r : Nat) :
    Except PyErr (HState × List String) :=
  if tag = "init" then
    match parts.get? 2 with
    | none => .error .indexError
    | some f2 =>
      if f2 = "battle" then
        .ok (⟨setB battle (Battle.new battle) st.activeBattles⟩,
             [battle ++ "|" ++ "/timer"])
      else .ok (st, [])
  else if tag = "request" then
    match parts.get? 2 with
    | none => .error .indexError
    | some f2 =>
      match env.jloads f2 with
      | none => .error .valueError
      | some req =>
        let step1 : Except PyErr HState :=
          match req.rqid with
          | none => .ok st
          | some rq =>
            match lookupB battle st.activeBattles with
            | none => .error .keyError
            | some b => .ok ⟨setB battle { b with rqid := rq } st.activeBattles⟩
        match step1 with
        | .error e => .error e
        | .ok st1 =>
          match req.side with
          | none => .error .keyError
          | some sd =>
            match sd.pokemon with
            | none => .error .keyError
            | some pokes =>
              match foldPokes st1 battle pokes with
              | .error e => .error e
              | .ok st2 => .ok (st2, [])
  else if tag = "poke" then
    match lookupB battle st.activeBattles with
    | none => .error .keyError
    | some _ =>
      match parts.get? 2 with
      | none => .error .indexError
      | some _ => .ok (st, [])
  else if tag = "player" then
    match parts.get? 3 with
    | none => .error .indexError
    | some f3 =>
      match lookupB battle st.activeBattles with
      | none => .error .keyError
      | some b =>
        if f3 = env.botName then
          .ok (⟨setB battle { b with me := b.me.bind f3 (parts.getD 2 "") }
                  st.activeBattles⟩, [])
        else
          .ok (⟨setB battle { b with other := b.other.bind f3 (parts.getD 2 "") }
                  st.activeBattles⟩, [])
  else if tag = "teampreview" then
    match lookupB battle st.activeBattles with
    | none => .error .keyError
    | some b =>
      .ok (st, [battle ++ "|" ++ ("/team " ++ Nat.repr r ++ "|" ++ b.rqid)])
  else if tag = "turn" then
    match lookupB battle st.activeBattles with
    | none => .error .keyError
    | some b =>
      match b.me.active with
      | none => .error .attrError
      | some p =>
        match p.moves.get? r with
        | none => .error .indexError
        | some mv =>
          .ok (st, [battle ++ "|" ++ ("/choose move " ++ mv ++ "|" ++ b.rqid)])
  else if tag = "switch" then
    match lookupB battle st.activeBattles with
    | none => .error .keyError
    | some b =>
      match parts.get? 2 with
      | none => .error .indexError
      | some f2 =>
        if startsWithL b.me.id.data f2.data then
          match parts.get? 3 with
          | none => .error .indexError
          | some f3 =>
            .ok (⟨setB battle
                   { b with me := b.me.setActive (b.me.getPokemon (getSpecies f3)) }
                   st.activeBattles⟩, [])
        else
          match parts.get? 3 with
          | none => .error .indexError
          | some f3 =>
            .ok (⟨setB battle
                   { b with other := b.other.setActive (b.other.getPokemon (getSpecies f3)) }
                   st.activeBattles⟩, [])
  else if tag = "win" ∨ tag = "tie" then
    match parts.get? 2 with
    | none => .error .indexError
    | some f2 =>
      .ok (st, [battle ++ "|" ++ (if f2 = env.botName then winRemark else tieRemark),
                battle ++ "|" ++ "/leave"])
  else .ok (st, [])

/-- Index the split line: Python `msg[1]` raises on a line with no `|`. -/
def parseFields (env : HEnv) (st : HState) (battle : String)
    (parts : List String) (r : Nat) : Except PyErr (HState × List String) :=
  match parts.get? 1 with
  | none => .error .indexError
  | some tag => parseTag env st battle parts tag r

/-- `BattleHandler.parse` (battleHandler.py lines 19-60): the empty-line
guard, the raw-substring duplicate-`init` guard (line 21, tested on the
UNSPLIT line), then the split and the tag dispatch. -/
def parse (env : HEnv) (st : HState) (battle : String) (msg : String)
    (r : Nat) : Except PyErr (HState × List String) :=
  if msg = "" then .ok (st, [])
  else if (lookupB battle st.activeBattles).isSome && hasInit msg then .ok (st, [])
  else parseFields env st battle (pySplit '|' msg) r

deriving instance DecidableEq for Except

/-! ### Concrete data for witnesses and counterexamples -/

/-- A one-type chart in which every species is single-typed with
multiplier 1 everywhere, so every nonempty team is acceptable. -/
def cfgW : TCfg := ⟨["Nor"], fun _ _ => 1, fun _ => ("Nor", none)⟩

def poolW : List String := ["A", "B", "C", "D", "E", "F"]

def teamW : List String := ["F", "E", "D", "C", "B", "A"]

/-- A pool holding a mega form together with its base species. -/
def poolM : List String := ["A-Mega", "A", "B", "C", "D", "E"]

def teamM : List String := ["E", "D", "C", "B", "A", "A-Mega"]

def idxs : List Nat := [0, 1, 2, 3, 4, 5]

def envC : HEnv := ⟨"Bot", fun _ => none⟩

def envR : HEnv := ⟨"Bot", fun _ => some ⟨some "1", none⟩⟩

def battle42 : Battle :=
  { room := "room", me := Side.empty, other := Side.empty, rqid := "42" }

def stOne : HState := ⟨[("room", battle42)]⟩

def pokeTackle : Pokemon :=
  { species := "Pika", details := "Pika", condition := "100/100",
    active := true, stats := [], moves := ["tackle"], baseAbility := "static",
    item := "", canMegaEvo := false }

def battleT : Battle :=
  { room := "room",
    me := { id := "p1", name := "Bot", team := [pokeTackle],
            active := some pokeTackle },
    other := Side.empty, rqid := "42" }

def stT : HState := ⟨[("room", battleT)]⟩

def stEmpty : HState := ⟨[]⟩

/-! ### Helper lemmas -/

/-- The duplicate-`init` guard: a tracked key plus the substring `init`
anywhere in the raw line short-circuits the whole handler. -/
theorem parse_guard (env : HEnv) (st : HState) (battle msg : String) (r : Nat)
    (h1 : (lookupB battle st.activeBattles).isSome = true)
    (h2 : hasInit msg = true) :
    parse env st battle msg r = .ok (st, []) := by
  have hmsg : msg ≠ "" := by
    rintro rfl
    exact absurd h2 (by decide)
  unfold parse
  rw [if_neg hmsg, if_pos (by rw [h1, h2]; rfl)]

/-- Reduction of `parse` past its two guards. -/
theorem parse_not_guard (env : HEnv) (st : HState) (battle msg : String) (r : Nat)
    (hne : msg ≠ "")
    (hg : ((lookupB battle st.activeBattles).isSome && hasInit msg) = false) :
    parse env st battle msg r = parseFields env st battle (pySplit '|' msg) r := by
  unfold parse
  rw [if_neg hne, if_neg (by rw [hg]; exact Bool.false_ne_true)]

theorem splitChAux_no_sep (sep : Char) :
    ∀ (l acc : List Char), (∀ c ∈ l, c ≠ sep) →
      splitChAux sep acc l = [acc.reverse ++ l] := by
  intro l
  induction l with
  | nil => intro acc _; simp [splitChAux]
  | cons c t ih =>
    intro acc h
    unfold splitChAux
    rw [if_neg (by simp [h c (List.mem_cons_self c t)]),
        ih (c :: acc) (fun x hx => h x (List.mem_cons_of_mem c hx))]
    simp

theorem mk_data (s : String) : String.mk s.data = s := rfl

/-- Splitting a `win` line with a pipe-free winner name. -/
theorem pySplit_win (w : String) (hw : ∀ c ∈ w.data, c ≠ '|') :
    pySplit '|' ("|win|" ++ w) = ["", "win", w] := by
  unfold pySplit
  rw [show ("|win|" ++ w).data = '|' :: 'w' :: 'i' :: 'n' :: '|' :: w.data from
    String.data_append ..]
  simp only [splitChAux, if_pos rfl]
  rw [splitChAux_no_sep '|' w.data _ hw]
  simp [mk_data]

theorem insertS_of_mem {p : String} {t : List String} (h : p ∈ t) :
    insertS p t = t := if_pos h

theorem insertS_of_not_mem {p : String} {t : List String} (h : p ∉ t) :
    insertS p t = p :: t := if_neg h

/-- Under the loop invariant (the current team is acceptable or empty) the
provisional add either keeps the candidate and is acceptable, or restores
the previous team. -/
theorem addStep_cases (cfg : TCfg) (poke : String) (team : List String)
    (hinv : acceptableWeakness cfg team = true ∨ team = []) :
    (addStep cfg poke team = insertS poke team ∧
     acceptableWeakness cfg (addStep cfg poke team) = true) ∨
    addStep cfg poke team = team := by
  unfold addStep
  by_cases hacc : acceptableWeakness cfg (insertS poke team) = true
  · rw [if_pos hacc]; exact Or.inl ⟨rfl, hacc⟩
  · rw [if_neg hacc]
    right
    by_cases hpm : poke ∈ team
    · rw [insertS_of_mem hpm] at hacc
      rcases hinv with ha | he
      · exact absurd ha hacc
      · subst he; simp at hpm
    · rw [insertS_of_not_mem hpm, List.erase_cons_head]

/-- Every non-fallback result of the drawing loop is acceptable and has at
least 6 members, provided the team it starts from is acceptable or empty. -/
theorem buildLoop_normal (cfg : TCfg) (pool : List String) :
    ∀ (rs : List Nat) (team : List String) (att : Nat) (t : List String),
      (acceptableWeakness cfg team = true ∨ team = []) →
      buildLoop cfg pool team att rs = some (t, false) →
      acceptableWeakness cfg t = true ∧ 6 ≤ t.length := by
  intro rs
  induction rs with
  | nil =>
    intro team att t hinv h
    unfold buildLoop at h
    split at h
    · rename_i hc
      rw [Bool.and_eq_true] at hc
      simp only [Option.some.injEq, Prod.mk.injEq] at h
      obtain ⟨rfl, -⟩ := h
      exact ⟨hc.2, of_decide_eq_true hc.1⟩
    · simp at h
  | cons r rs ih =>
    intro team att t hinv h
    unfold buildLoop at h
    split at h
    · rename_i hc
      rw [Bool.and_eq_true] at hc
      simp only [Option.some.injEq, Prod.mk.injEq] at h
      obtain ⟨rfl, -⟩ := h
      exact ⟨hc.2, of_decide_eq_true hc.1⟩
    · rename_i hc
      split at h
      · simp at h
      · rename_i poke hp
        split at h
        · exact ih team att t hinv h
        · split at h
          · exact ih team att t hinv h
          · split at h
            · rename_i h6
              simp only [Option.some.injEq, Prod.mk.injEq] at h
              obtain ⟨rfl, -⟩ := h
              rcases addStep_cases cfg poke team hinv with ⟨heq, hacc⟩ | heq
              · exact ⟨hacc, h6⟩
              · rcases hinv with ha | he
                · rw [heq] at h6
                  exact absurd (by rw [Bool.and_eq_true]
                                   exact ⟨decide_eq_true h6, ha⟩) hc
                · subst he
                  rw [heq] at h6
                  simp at h6
            · split at h
              · cases hf : fillTeam pool (addStep cfg poke team) rs with
                | none => rw [hf] at h; simp at h
                | some tt => rw [hf] at h; simp at h
              · apply ih (addStep cfg poke team) (att + 1) t ?_ h
                rcases addStep_cases cfg poke team hinv with ⟨-, hacc⟩ | heq
                · exact Or.inl hacc
                · rw [heq]; exact hinv

/-- The provisional add never makes a second `-Mega` member. -/
theorem addStep_mega (cfg : TCfg) (poke : String) (team : List String)
    (hm : (team.any hasMegaSub && hasMegaSub poke) = false)
    (hc : team.countP hasMegaSub ≤ 1) :
    (addStep cfg poke team).countP hasMegaSub ≤ 1 := by
  have hins : (insertS poke team).countP hasMegaSub ≤ 1 := by
    unfold insertS
    split
    · exact hc
    · cases hmp : hasMegaSub poke with
      | false =>
        rw [List.countP_cons_of_neg _ _ (by rw [hmp]; exact Bool.false_ne_true)]
        exact hc
      | true =>
        have hany : team.any hasMegaSub = false := by
          cases hq : team.any hasMegaSub
          · rfl
          · rw [hq, hmp] at hm; simp at hm
        have hzero : team.countP hasMegaSub = 0 := by
          rw [List.countP_eq_zero]
          intro a ha
          rw [List.any_eq_false] at hany
          exact hany a ha
        rw [List.countP_cons_of_pos _ _ (by rw [hmp]), hzero]
  unfold addStep
  split
  · exact hins
  · exact le_trans (List.Sublist.countP_le _ (List.erase_sublist _ _)) hins

/-- Every non-fallback result of the drawing loop has at most one `-Mega`
member, provided the team it starts from does. -/
theorem buildLoop_mega (cfg : TCfg) (pool : List String) :
    ∀ (rs : List Nat) (team : List String) (att : Nat) (t : List String),
      team.countP hasMegaSub ≤ 1 →
      buildLoop cfg pool team att rs = some (t, false) →
      t.countP hasMegaSub ≤ 1 := by
  intro rs
  induction rs with
  | nil =>
    intro team att t hinv h
    unfold buildLoop at h
    split at h
    · simp only [Option.some.injEq, Prod.mk.injEq] at h
      obtain ⟨rfl, -⟩ := h
      exact hinv
    · simp at h
  | cons r rs ih =>
    intro team att t hinv h
    unfold buildLoop at h
    split at h
    · simp only [Option.some.injEq, Prod.mk.injEq] at h
      obtain ⟨rfl, -⟩ := h
      exact hinv
    · split at h
      · simp at h
      · rename_i poke hp
        split at h
        · exact ih team att t hinv h
        · split at h
          · exact ih team att t hinv h
          · rename_i hs hm2
            have hm : (team.any hasMegaSub && hasMegaSub poke) = false := by
              revert hm2
              cases team.any hasMegaSub && hasMegaSub poke <;> simp
            split at h
            · simp only [Option.some.injEq, Prod.mk.injEq] at h
              obtain ⟨rfl, -⟩ := h
              exact addStep_mega cfg poke team hm hinv
            · split at h
              · cases hf : fillTeam pool (addStep cfg poke team) rs with
                | none => rw [hf] at h; simp at h
                | some tt => rw [hf] at h; simp at h
              · exact ih (addStep cfg poke team) (att + 1) t
                  (addStep_mega cfg poke team hm hinv) h

/-- With a one-species pool the fallback fill can never reach 6 members:
it consumes every supplied draw and is still running. -/
theorem fillTeam_single (x : String) :
    ∀ (rs : List Nat) (team : List String),
      (team = [] ∨ team = [x]) → fillTeam [x] team rs = none := by
  intro rs
  induction rs with
  | nil =>
    intro team hinv
    rcases hinv with rfl | rfl <;> rfl
  | cons r rs ih =>
    intro team hinv
    have hpick : pickPoke [x] r = some x := by
      simp [pickPoke, Nat.mod_one]
    rcases hinv with rfl | rfl
    · unfold fillTeam
      rw [if_neg (by simp), hpick]
      exact ih (insertS x []) (Or.inr (insertS_of_not_mem (by simp)))
    · unfold fillTeam
      rw [if_neg (by simp), hpick]
      exact ih (insertS x [x]) (Or.inr (insertS_of_mem (by simp)))

/-- With a one-species pool the drawing loop (fallback included) never
finishes: the team stays within `{[], [x]}` forever. -/
theorem buildLoop_single (cfg : TCfg) (x : String) :
    ∀ (rs : List Nat) (team : List String) (att : Nat),
      (team = [] ∨ team = [x]) →
      buildLoop cfg [x] team att rs = none := by
  intro rs
  induction rs with
  | nil =>
    intro team att hinv
    rcases hinv with rfl | rfl
    · rfl
    · rfl
  | cons r rs ih =>
    intro team att hinv
    have hpick : pickPoke [x] r = some x := by
      simp [pickPoke, Nat.mod_one]
    have hstep0 : addStep cfg x [] = [x] ∨ addStep cfg x [] = [] := by
      unfold addStep
      rw [insertS_of_not_mem (by simp)]
      split
      · exact Or.inl rfl
      · rw [List.erase_cons_head]
        exact Or.inr rfl
    have hstep1 : addStep cfg x [x] = [x] ∨ addStep cfg x [x] = [] := by
      unfold addStep
      rw [insertS_of_mem (by simp)]
      split
      · exact Or.inl rfl
      · rw [List.erase_cons_head]
        exact Or.inr rfl
    unfold buildLoop
    rcases hinv with rfl | rfl
    · rw [hpick]
      show (if stripForms x ∈ ([] : List String) then
              buildLoop cfg [x] [] att rs
            else if ([] : List String).any hasMegaSub && hasMegaSub x then
              buildLoop cfg [x] [] att rs
            else if 6 ≤ (addStep cfg x []).length then
              some (addStep cfg x [], false)
            else if 100 ≤ att + 1 then
              (fillTeam [x] (addStep cfg x []) rs).map fun t => (t, true)
            else buildLoop cfg [x] (addStep cfg x []) (att + 1) rs) = none
      rw [if_neg (by simp), if_neg (by simp)]
      rcases hstep0 with heq | heq <;>
        rw [heq] <;>
        rw [if_neg (by simp)] <;>
        split
      · rw [fillTeam_single x rs [x] (Or.inr rfl)]; rfl
      · exact ih [x] (att + 1) (Or.inr rfl)
      · rw [fillTeam_single x rs [] (Or.inl rfl)]; rfl
      · exact ih [] (att + 1) (Or.inl rfl)
    · rw [hpick]
      show (if stripForms x ∈ [x] then
              buildLoop cfg [x] [x] att rs
            else if ([x] : List String).any hasMegaSub && hasMegaSub x then
              buildLoop cfg [x] [x] att rs
            else if 6 ≤ (addStep cfg x [x]).length then
              some (addStep cfg x [x], false)
            else if 100 ≤ att + 1 then
              (fillTeam [x] (addStep cfg x [x]) rs).map fun t => (t, true)
            else buildLoop cfg [x] (addStep cfg x [x]) (att + 1) rs) = none
      split
      · exact ih [x] att (Or.inr rfl)
      · split
        · exact ih [x] att (Or.inr rfl)
        · rcases hstep1 with heq | heq <;>
            rw [heq] <;>
            rw [if_neg (by simp)] <;>
            split
          · rw [fillTeam_single x rs [x] (Or.inr rfl)]; rfl
          · exact ih [x] (att + 1) (Or.inr rfl)
          · rw [fillTeam_single x rs [] (Or.inl rfl)]; rfl
          · exact ih [] (att + 1) (Or.inl rfl)

/-! ### The claims -/

/-- C1: `acceptableWeakness` is exactly the spec's predicate: true iff the
team is nonempty and, for every attacking type, fewer than 3 members have
type-multiplier product `> 1` and it is not the case that at least 2 do
while at most 1 member has product `< 1`; a product of exactly 1 counts as
neither, and the empty team is never acceptable. -/
theorem c1_acceptableWeakness_spec :
    ∀ (cfg : TCfg) (team : List String),
      (acceptableWeakness cfg team = true ↔ specAcceptable cfg team) ∧
      acceptableWeakness cfg [] = false := by
  intro cfg team
  refine ⟨?_, by rfl⟩
  cases team with
  | nil => simp [acceptableWeakness, specAcceptable]
  | cons a t =>
    unfold acceptableWeakness specAcceptable specWeakCount specResCount
    rw [if_neg (by simp)]
    simp only [eff_eq_specEff, List.all_eq_true, Bool.and_eq_true,
      Bool.not_eq_true', decide_eq_false_iff_not, Nat.not_le, ← Bool.decide_and,
      ne_eq, List.cons_ne_nil, not_false_eq_true, true_and]

/-- C9: a second `init battle` line for a battle key that is already in the
session table is an idempotent no-op: the table and every session are left
unchanged and nothing is sent. -/
theorem c9_reinit_idempotent (env : HEnv) (st : HState) (k : String)
    (b : Battle) (r : Nat) (h : lookupB k st.activeBattles = some b) :
    parse env st k "|init|battle" r = .ok (st, []) :=
  parse_guard env st k _ r (by rw [h]; rfl) (by decide)

/-- Witness for C9 at a concrete tracked session. -/
theorem c9_witness : parse envC stOne "room" "|init|battle" 0 = .ok (stOne, []) :=
  c9_reinit_idempotent envC stOne "room" battle42 0 (by rfl)

/-- C10: for a tracked battle key, ANY raw line containing the substring
`init` anywhere — e.g. a `win` line naming a player whose name contains
`init` — is dropped before the line is even split: state, rosters and the
session table are unchanged and nothing is sent, because line 21 of
battleHandler.py tests the whole unsplit string. -/
theorem c10_raw_init_guard (env : HEnv) (st : HState) (k msg : String)
    (r : Nat) (h1 : (lookupB k st.activeBattles).isSome = true)
    (h2 : hasInit msg = true) :
    parse env st k msg r = .ok (st, []) :=
  parse_guard env st k msg r h1 h2

/-- Witness for C10: a `win` line whose winner name contains `init`. -/
theorem c10_witness :
    parse envC stOne "room" "|win|Trainit" 0 = .ok (stOne, []) :=
  c10_raw_init_guard envC stOne "room" "|win|Trainit" 0 (by rfl) (by decide)

/-- C2 fails as stated: `randint(0,6)` is inclusive at both ends, so the
draw 6 is possible and the emitted line is `/team 6|42`, which matches
`/team <k>|42` for no `k < 6`. -/
theorem c2_counterexample :
    parse envC stOne "room" "|teampreview" 6 = .ok (stOne, ["room|/team 6|42"]) ∧
    ∀ k < 6, ("room|/team " ++ Nat.repr k ++ "|42") ≠ "room|/team 6|42" :=
  ⟨by decide, by decide⟩

/-- C2 amended: on `teampreview` for a tracked session exactly one line
`/team <k>|<rqid>` is emitted, where `k` is the value drawn by
`randint(0,6)` and hence ranges over `[0,6]` — `k = 6` included. -/
theorem c2_teampreview (env : HEnv) (st : HState) (k : String) (b : Battle)
    (r : Nat) (hb : lookupB k st.activeBattles = some b) (hr : r ≤ 6) :
    parse env st k "|teampreview" r =
      .ok (st, [k ++ "|" ++ ("/team " ++ Nat.repr r ++ "|" ++ b.rqid)]) := by
  rw [parse_not_guard env st k _ r (by decide)
      (by rw [show hasInit "|teampreview" = false from by decide]
          exact Bool.and_false _)]
  rw [show pySplit '|' "|teampreview" = ["", "teampreview"] from by decide]
  show (match lookupB k st.activeBattles with
        | none => (Except.error PyErr.keyError : Except PyErr (HState × List String))
        | some b => .ok (st, [k ++ "|" ++ ("/team " ++ Nat.repr r ++ "|" ++ b.rqid)])) = _
  rw [hb]

/-- Witness for C2 (amended) at the stored request id `42` and draw 6. -/
theorem c2_witness :
    parse envC stOne "room" "|teampreview" 6 =
      .ok (stOne, ["room" ++ "|" ++ ("/team " ++ Nat.repr 6 ++ "|" ++ battle42.rqid)]) :=
  c2_teampreview envC stOne "room" battle42 6 (by rfl) (by decide)

/-- C3 fails as stated: after `|win|Bot` the closing remark and `/leave`
are emitted but the session is NOT removed — the state is returned
unchanged, the key still resolves, and a subsequent `teampreview` for the
same key is processed as a tracked session, not as the unknown-session
case. -/
theorem c3_counterexample :
    parse envC stOne "room" "|win|Bot" 0 =
      .ok (stOne, ["room|" ++ winRemark, "room|/leave"]) ∧
    lookupB "room" stOne.activeBattles = some battle42 ∧
    parse envC stOne "room" "|teampreview" 0 = .ok (stOne, ["room|/team 0|42"]) :=
  ⟨by decide, by rfl, by decide⟩

/-- C3 amended: `win`/`tie` emits the remark (chosen by comparing the
winner field with the bot's name) and `/leave`, but leaves the session
table — and hence every session — unchanged, so subsequent messages for
the key are still handled as tracked-session messages. -/
theorem c3_win_no_removal (env : HEnv) (st : HState) (k w : String) (r : Nat)
    (hw : ∀ c ∈ w.data, c ≠ '|') (hi : hasInit ("|win|" ++ w) = false) :
    parse env st k ("|win|" ++ w) r =
      .ok (st, [k ++ "|" ++ (if w = env.botName then winRemark else tieRemark),
                k ++ "|" ++ "/leave"]) := by
  rw [parse_not_guard env st k _ r ?hne (by rw [hi]; exact Bool.and_false _)]
  case hne =>
    intro h
    have h2 := congrArg String.length h
    rw [String.length_append, show ("".length) = 0 from rfl,
        show ("|win|".length) = 5 from rfl] at h2
    omega
  rw [pySplit_win w hw]
  rfl

/-- Witness for C3 (amended): the bot itself wins; state is unchanged. -/
theorem c3_witness :
    parse envC stOne "room" ("|win|" ++ "Bot") 0 =
      .ok (stOne, ["room" ++ "|" ++ (if "Bot" = envC.botName then winRemark else tieRemark),
                   "room" ++ "|" ++ "/leave"]) :=
  c3_win_no_removal envC stOne "room" "Bot" 0 (by decide) (by decide)

/-- C4 fails as stated: with a non-empty move list of fewer than 4 moves
(here one move), the possible draw `randint(0,3) = 3` indexes past the
list, so the handler raises an index fault and emits nothing instead of
choosing a recorded move. -/
theorem c4_counterexample :
    pokeTackle.moves ≠ [] ∧
    parse envC stT "room" "|turn" 3 = .error .indexError :=
  ⟨by decide, by decide⟩

/-- C4 amended: on `turn` the handler indexes the active Pokemon's move
list at the draw of `randint(0,3)` — uniform over positions 0-3, not over
the recorded moves.  If the position exists, it emits exactly
`/choose move <m>|<rqid>` for that move; otherwise — always, when no moves
are recorded, and with positive probability whenever fewer than 4 are — it
raises an index fault and emits no command. -/
theorem c4_turn (env : HEnv) (st : HState) (k : String) (b : Battle)
    (p : Pokemon) (r : Nat)
    (hb : lookupB k st.activeBattles = some b) (ha : b.me.active = some p) :
    parse env st k "|turn" r =
      (match p.moves.get? r with
       | some mv => .ok (st, [k ++ "|" ++ ("/choose move " ++ mv ++ "|" ++ b.rqid)])
       | none => .error .indexError) := by
  rw [parse_not_guard env st k _ r (by decide)
      (by rw [show hasInit "|turn" = false from by decide]
          exact Bool.and_false _)]
  rw [show pySplit '|' "|turn" = ["", "turn"] from by decide]
  show (match lookupB k st.activeBattles with
        | none => (Except.error PyErr.keyError : Except PyErr (HState × List String))
        | some b => match b.me.active with
          | none => .error .attrError
          | some p => match p.moves.get? r with
            | none => .error .indexError
            | some mv => .ok (st, [k ++ "|" ++ ("/choose move " ++ mv ++ "|" ++ b.rqid)])) = _
  rw [hb]
  show (match b.me.active with
        | none => (Except.error PyErr.attrError : Except PyErr (HState × List String))
        | some p => match p.moves.get? r with
          | none => .error .indexError
          | some mv => .ok (st, [k ++ "|" ++ ("/choose move " ++ mv ++ "|" ++ b.rqid)])) = _
  rw [ha]
  show (match p.moves.get? r with
        | none => (Except.error PyErr.indexError : Except PyErr (HState × List String))
        | some mv => .ok (st, [k ++ "|" ++ ("/choose move " ++ mv ++ "|" ++ b.rqid)])) = _
  cases hmv : p.moves.get? r <;> rfl

/-- Witness for C4 (amended): one recorded move, draw 0 selects it. -/
theorem c4_witness :
    parse envC stT "room" "|turn" 0 =
      .ok (stT, ["room" ++ "|" ++ ("/choose move " ++ "tackle" ++ "|" ++ battleT.rqid)]) := by
  rw [c4_turn envC stT "room" battleT pokeTackle 0 (by rfl) (by rfl)]
  rfl

/-- C8 fails as stated: a `turn` message for a battle key with no tracked
session raises a lookup fault (Python `KeyError`) instead of being a
logged no-op. -/
theorem c8_counterexample :
    parse envC stEmpty "room" "|turn" 0 = .error .keyError := by decide

/-- C8 amended: for a non-`init` message whose battle key has no tracked
session the handler is NOT a uniform no-op: the tags `request` (with a
decodable payload carrying a request id), `poke`, `player`, `teampreview`,
`turn` and `switch` raise a lookup fault and emit nothing; `win`/`tie`
emit the closing remark and `/leave` even though no session exists; only
an unrecognized tag is a true no-op. -/
theorem c8_unknown_session (env : HEnv) (st : HState) (k : String) (r : Nat)
    (h : lookupB k st.activeBattles = none)
    (hj : env.jloads "P" = some ⟨some "1", none⟩) :
    parse env st k "|request|P" r = .error .keyError ∧
    parse env st k "|poke|p1|Pik" r = .error .keyError ∧
    parse env st k "|player|p2|Alice" r = .error .keyError ∧
    parse env st k "|teampreview" r = .error .keyError ∧
    parse env st k "|turn" r = .error .keyError ∧
    parse env st k "|switch|p1a: A|A, L50" r = .error .keyError ∧
    parse env st k "|win|Alice" r =
      .ok (st, [k ++ "|" ++ (if "Alice" = env.botName then winRemark else tieRemark),
                k ++ "|" ++ "/leave"]) ∧
    parse env st k "|unusedtag|x" r = .ok (st, []) := by
  refine ⟨?_, ?_, ?_, ?_, ?_, ?_, ?_, ?_⟩
  · rw [parse_not_guard env st k _ r (by decide) (by rw [h]; rfl)]
    rw [show pySplit '|' "|request|P" = ["", "request", "P"] from by decide]
    show (match env.jloads "P" with
          | none => (Except.error PyErr.valueError : Except PyErr (HState × List String))
          | some req =>
            match (match req.rqid with
                   | none => Except.ok st
                   | some rq =>
                     match lookupB k st.activeBattles with
                     | none => Except.error PyErr.keyError
                     | some b => Except.ok (⟨setB k { b with rqid := rq } st.activeBattles⟩ : HState)) with
            | .error e => Except.error e
            | .ok st1 =>
              match req.side with
              | none => Except.error PyErr.keyError
              | some sd =>
                match sd.pokemon with
                | none => Except.error PyErr.keyError
                | some pokes =>
                  match foldPokes st1 k pokes with
                  | .error e => Except.error e
                  | .ok st2 => Except.ok (st2, [])) = _
    rw [hj]
    show (match (match lookupB k st.activeBattles with
                 | none => Except.error PyErr.keyError
                 | some b => Except.ok (⟨setB k { b with rqid := "1" } st.activeBattles⟩ : HState)) with
          | .error e => (Except.error e : Except PyErr (HState × List String))
          | .ok st1 => Except.error PyErr.keyError) = _
    rw [h]
  · rw [parse_not_guard env st k _ r (by decide) (by rw [h]; rfl)]
    rw [show pySplit '|' "|poke|p1|Pik" = ["", "poke", "p1", "Pik"] from by decide]
    show (match lookupB k st.activeBattles with
          | none => (Except.error PyErr.keyError : Except PyErr (HState × List String))
          | some b => Except.ok (st, [])) = _
    rw [h]
  · rw [parse_not_guard env st k _ r (by decide) (by rw [h]; rfl)]
    rw [show pySplit '|' "|player|p2|Alice" = ["", "player", "p2", "Alice"] from by decide]
    show (match lookupB k st.activeBattles with
          | none => (Except.error PyErr.keyError : Except PyErr (HState × List String))
          | some b =>
            if "Alice" = env.botName then
              Except.ok (⟨setB k { b with me := b.me.bind "Alice" "p2" } st.activeBattles⟩, [])
            else
              Except.ok (⟨setB k { b with other := b.other.bind "Alice" "p2" } st.activeBattles⟩, [])) = _
    rw [h]
  · rw [parse_not_guard env st k _ r (by decide) (by rw [h]; rfl)]
    rw [show pySplit '|' "|teampreview" = ["", "teampreview"] from by decide]
    show (match lookupB k st.activeBattles with
          | none => (Except.error PyErr.keyError : Except PyErr (HState × List String))
          | some b => Except.ok (st, [k ++ "|" ++ ("/team " ++ Nat.repr r ++ "|" ++ b.rqid)])) = _
    rw [h]
  · rw [parse_not_guard env st k _ r (by decide) (by rw [h]; rfl)]
    rw [show pySplit '|' "|turn" = ["", "turn"] from by decide]
    show (match lookupB k st.activeBattles with
          | none => (Except.error PyErr.keyError : Except PyErr (HState × List String))
          | some b => match b.me.active with
            | none => .error .attrError
            | some p => match p.moves.get? r with
              | none => .error .indexError
              | some mv => .ok (st, [k ++ "|" ++ ("/choose move " ++ mv ++ "|" ++ b.rqid)])) = _
    rw [h]
  · rw [parse_not_guard env st k _ r (by decide) (by rw [h]; rfl)]
    rw [show pySplit '|' "|switch|p1a: A|A, L50" = ["", "switch", "p1a: A", "A, L50"] from by decide]
    show (match lookupB k st.activeBattles with
          | none => (Except.error PyErr.keyError : Except PyErr (HState × List String))
          | some b =>
            if startsWithL b.me.id.data ("p1a: A".data) then
              Except.ok (⟨setB k { b with me := b.me.setActive (b.me.getPokemon (getSpecies "A, L50")) } st.activeBattles⟩, [])
            else
              Except.ok (⟨setB k { b with other := b.other.setActive (b.other.getPokemon (getSpecies "A, L50")) } st.activeBattles⟩, [])) = _
    rw [h]
  · rw [parse_not_guard env st k _ r (by decide) (by rw [h]; rfl)]
    rw [show pySplit '|' "|win|Alice" = ["", "win", "Alice"] from by decide]
    rfl
  · rw [parse_not_guard env st k _ r (by decide) (by rw [h]; rfl)]
    rw [show pySplit '|' "|unusedtag|x" = ["", "unusedtag", "x"] from by decide]
    rfl

/-- Witness for C8 (amended) on the empty session table. -/
theorem c8_witness :
    parse envR stEmpty "room" "|request|P" 0 = .error .keyError ∧
    parse envR stEmpty "room" "|poke|p1|Pik" 0 = .error .keyError ∧
    parse envR stEmpty "room" "|player|p2|Alice" 0 = .error .keyError ∧
    parse envR stEmpty "room" "|teampreview" 0 = .error .keyError ∧
    parse envR stEmpty "room" "|turn" 0 = .error .keyError ∧
    parse envR stEmpty "room" "|switch|p1a: A|A, L50" 0 = .error .keyError ∧
    parse envR stEmpty "room" "|win|Alice" 0 =
      .ok (stEmpty, ["room" ++ "|" ++ (if "Alice" = envR.botName then winRemark else tieRemark),
                     "room" ++ "|" ++ "/leave"]) ∧
    parse envR stEmpty "room" "|unusedtag|x" 0 = .ok (stEmpty, []) :=
  c8_unknown_session envR stEmpty "room" 0 (by rfl) (by rfl)

/-- C5 fails as stated: the dedup check strips only the CANDIDATE before
comparing it verbatim against members, so drawing `A-Mega` first and `A`
second puts two members with the same base species into a normal-path
team. -/
theorem c5_counterexample :
    build cfgW poolM idxs = some (teamM, false) ∧
    "A-Mega" ∈ teamM ∧ "A" ∈ teamM ∧ stripForms "A-Mega" = stripForms "A" ∧
    ¬ teamM.Pairwise (fun p q => stripForms p ≠ stripForms q) :=
  ⟨by decide, by decide, by decide, by decide, by decide⟩

/-- C5 amended: a team returned through the normal path contains at most
one member whose descriptor contains `-Mega`.  Base-species deduplication
does NOT hold (a base form may be added when its mega form is already
present, since only the candidate is suffix-stripped before the verbatim
membership test), `-Primal` forms are not limited, and the fallback path
enforces nothing. -/
theorem c5_mega_unique_normal (cfg : TCfg) (pool : List String)
    (rs : List Nat) (t : List String)
    (h : build cfg pool rs = some (t, false)) :
    t.countP hasMegaSub ≤ 1 :=
  buildLoop_mega cfg pool rs [] 0 t (by simp) h

/-- Witness for C5 (amended) on a concrete normal-path run. -/
theorem c5_witness : teamW.countP hasMegaSub ≤ 1 :=
  c5_mega_unique_normal cfgW poolW idxs teamW (by decide)

/-- C6: every team the builder returns through the normal (non-fallback)
path satisfies `acceptableWeakness` — and indeed has (at least) 6 members.
The candidate is removed again whenever adding it breaks acceptability, and
both loop exits re-check the predicate, so a non-fallback result is always
acceptable. -/
theorem c6_normal_path_acceptable (cfg : TCfg) (pool : List String)
    (rs : List Nat) (t : List String)
    (h : build cfg pool rs = some (t, false)) :
    acceptableWeakness cfg t = true ∧ 6 ≤ t.length :=
  buildLoop_normal cfg pool rs [] 0 t (Or.inr rfl) h

/-- Witness for C6 on a concrete normal-path run. -/
theorem c6_witness : acceptableWeakness cfgW teamW = true ∧ 6 ≤ teamW.length :=
  c6_normal_path_acceptable cfgW poolW idxs teamW (by decide)

/-- C7 exhibits the divergence: with a pool of a single species (fewer
than 6 distinct usable species) the builder never returns — for EVERY
finite supply of random draws it is still running (duplicate draws are
rejected without counting an attempt, and the fallback fill can never
reach 6 members), instead of failing with a capacity error as the spec
requires. -/
theorem c7_undersized_pool_diverges (cfg : TCfg) (x : String)
    (rs : List Nat) : build cfg [x] rs = none :=
  buildLoop_single cfg x rs [] 0 (Or.inl rfl)

end PSBot
